import Mathlib

/-!
Verification of the Ohio weighted weather-forecast pipeline
(`src/weather_forecast.py`) against its specification.

The script is a single sequential pipeline: fetch per-station 15-day
forecasts, combine them with fixed station weights, derive day-over-day
deltas, fetch per-station climate normals for two averaging windows,
bucket them by month-day, combine them with the same weights, and emit a
CSV plus an HTML table.  We embed the pipeline shallowly: HTTP responses
become explicit input values, Python floats become exact rationals `ℚ`,
Python `round(x, 1)` becomes round-half-to-even at one decimal, dicts
become association lists or option-valued lookups, and exceptions become
`Except` values.  All file writing happens in the final steps of
`main`, after every fetch and every computation, so a propagated
exception is modelled as an `Except.error` result carrying no output.
-/

namespace Ohio

/-- Number of forecast days (`DAYS = 15` in the script). -/
def DAYS : ℕ := 15

/-- Threshold for highlighting day-over-day change, in °F
(`DOD_HIGHLIGHT = 2.0`). -/
def DOD_HIGHLIGHT : ℚ := 2

/-- Floor of a rational, computed as floor division of numerator by
denominator (kept executable; agrees with `Int.floor`). -/
def floorQ (q : ℚ) : ℤ := Int.fdiv q.num q.den

/-- Round a rational to the nearest integer, ties to even: the semantics
of Python's built-in `round` on exact values. -/
def roundHalfEven (q : ℚ) : ℤ :=
  let f := floorQ q
  let frac := q - (f : ℚ)
  if frac < 1/2 then f
  else if 1/2 < frac then f + 1
  else if f % 2 = 0 then f else f + 1

/-- Python's `round(x, 1)`: round to one decimal place. -/
def round1 (q : ℚ) : ℚ := (roundHalfEven (q * 10) : ℚ) / 10

/-- A JSON value appearing in a response's value array.
`null` is JSON null (Python `None`); `num q` is a JSON number;
`numStr q` is a string that Python's `float` parses to `q`;
`bad` is any value that `float` rejects with an exception
(a non-numeric string, an object, ...). -/
inductive JVal where
  | null : JVal
  | num (q : ℚ) : JVal
  | numStr (q : ℚ) : JVal
  | bad : JVal
deriving DecidableEq

/-- `t[5:]` on a date string: the month-day component of an ISO
`YYYY-MM-DD` date. -/
def mdOf (t : String) : String := t.drop 5

/-- One pass of the bucket loop body in `fetch_normals_doy_map`:
`None` values are skipped by the `v is not None` check, values that
`float(v)` converts are appended, and values on which `float(v)` raises
are skipped by the per-entry `except: continue` handler. -/
def normalsEntry : JVal → Option ℚ
  | .null => none
  | .num q => some q
  | .numStr q => some q
  | .bad => none

/-- `buckets[md].append(q)` on the insertion-ordered `defaultdict`:
append to the existing bucket for `md`, or create a new bucket at the
end. -/
def addBucket : List (String × List ℚ) → String → ℚ → List (String × List ℚ)
  | [], md, q => [(md, [q])]
  | (k, arr) :: rest, md, q =>
      if k = md then (k, arr ++ [q]) :: rest else (k, arr) :: addBucket rest md q

/-- The bucket loop of `fetch_normals_doy_map` over `zip(times, vals)`,
with explicit accumulator `bs`. -/
def buildBuckets : List (String × JVal) → List (String × List ℚ) → List (String × List ℚ)
  | [], bs => bs
  | (t, v) :: rest, bs =>
      match normalsEntry v with
      | some q => buildBuckets rest (addBucket bs (mdOf t) q)
      | none => buildBuckets rest bs

/-- `fetch_normals_doy_map` as a function of the response.  `none` models
every failure that reaches the outer `except` (network error, non-success
status, malformed JSON) as well as a missing `daily` section; `some
(times, vals)` is a parsed payload.  The guard mirrors
`if not times or not vals or len(times) != len(vals): return {}`, and the
result mirrors the final dict comprehension
`{md: round(sum(arr)/len(arr), 1) for md, arr in buckets.items() if arr}`
as an insertion-ordered association list. -/
def fetch_normals_doy_map : Option (List String × List JVal) → List (String × ℚ)
  | none => []
  | some (times, vals) =>
      if times.isEmpty || vals.isEmpty || times.length ≠ vals.length then []
      else
        (buildBuckets (times.zip vals) []).filterMap
          (fun p => if p.2.isEmpty then none else some (p.1, round1 (p.2.sum / (p.2.length : ℚ))))

/-- Station metadata as in the `AIRPORTS` table: latitude, longitude and
relative weight. -/
structure Meta where
  lat : ℚ
  lon : ℚ
  weight : ℚ
deriving DecidableEq

/-- The hardcoded Ohio airports table, in its Python insertion order
(dicts iterate in insertion order, so `"Cleveland"` is always first). -/
def AIRPORTS : List (String × Meta) :=
  [("Cleveland", ⟨414117/10000, -818498/10000, 54/100⟩),
   ("Akron", ⟨409163/10000, -814422/10000, 32/100⟩),
   ("Youngstown", ⟨412607/10000, -806791/10000, 13/100⟩),
   ("Columbus", ⟨399980/10000, -828919/10000, 1/100⟩)]

/-- The row-highlight classification of `build_html_table`: starting from
no class, a parsed change `val` sets `"warm"` when `val >= DOD_HIGHLIGHT`
and `"cool"` when `val <= -DOD_HIGHLIGHT`; an absent change (empty cell
or NaN after the CSV round trip) leaves the row unclassified. -/
def rowHighlight : Option ℚ → String
  | none => ""
  | some v => if v ≥ DOD_HIGHLIGHT then "warm" else if v ≤ -DOD_HIGHLIGHT then "cool" else ""

/-- The sign class put on the DoD cell by `build_html_table`
(independent of the row highlight). -/
def dodSignClass : Option ℚ → String
  | none => "zero"
  | some v => if v > 0 then "pos" else if v < 0 then "neg" else "zero"

/-- A Python exception escaping the pipeline: an HTTP/transport error
raised by `_http_get_json` (via `raise_for_status`, a timeout, or JSON
decoding), an `IndexError` from list indexing, or a `TypeError` from
multiplying a non-number by a float. -/
inductive PyErr where
  | httpErr : PyErr
  | indexErr : PyErr
  | typeErr : PyErr
deriving DecidableEq

/-- Result of one forecast fetch for one station: `fail` is any failure
raised by `_http_get_json` or a missing `daily` section (all of which
propagate on the forecast path), `ok times vals` is a parsed payload. -/
inductive ForecastResp where
  | fail : ForecastResp
  | ok (times : List String) (vals : List JVal) : ForecastResp
deriving DecidableEq

/-- The external world of one run: what each endpoint returns, keyed by
station name (each station is fetched once per phase). -/
structure Env where
  forecast : String → ForecastResp
  normals10 : String → Option (List String × List JVal)
  normals30 : String → Option (List String × List JVal)

/-- Python list indexing `l[i]`: the element, or an `IndexError`. -/
def pyIndex {α : Type} (l : List α) (i : ℕ) : Except PyErr α :=
  if h : i < l.length then .ok (l.get ⟨i, h⟩) else .error .indexErr

/-- `v * weight` in the weighted-forecast sum: only a JSON number
multiplies with a float; `None`, strings and other values raise
`TypeError`. -/
def pyNum : JVal → Except PyErr ℚ
  | .num q => .ok q
  | _ => .error .typeErr

/-- The payload of a successful forecast fetch (dates, values); the
`fail` case is a placeholder that is only ever used under a hypothesis
ruling it out. -/
def fcData : ForecastResp → List String × List JVal
  | .fail => ([], [])
  | .ok ts vs => (ts, vs)

/-- Step 1 of `main`: fetch each station's forecast in table order.  The
first failure propagates out of the loop; on success the collected
`(city, (dates, means))` triples are returned in order. -/
def fetchAll (env : Env) : List (String × Meta) → Except PyErr (List (String × List String × List JVal))
  | [] => .ok []
  | (c, _) :: rest =>
      match env.forecast c with
      | .fail => .error .httpErr
      | .ok ts vs =>
          match fetchAll env rest with
          | .error e => .error e
          | .ok tail => .ok ((c, ts, vs) :: tail)

/-- The dict access `city_series[city]` on the collected fetch results
(every looked-up city is present in `main`, so the default is never
consulted there). -/
def seriesOf (fetched : List (String × List String × List JVal)) : String → List JVal :=
  fun c => ((fetched.lookup c).map (fun p => p.2)).getD []

/-- The generator sum
`sum(city_series[city][i] * meta["weight"] for city, meta in AIRPORTS.items())`
with explicit accumulator: evaluated left to right, the first failing
index access or non-numeric value raises. -/
def sumCities (series : String → List JVal) (i : ℕ) : List (String × Meta) → ℚ → Except PyErr ℚ
  | [], acc => .ok acc
  | (c, m) :: rest, acc =>
      match pyIndex (series c) i with
      | .error e => .error e
      | .ok v =>
          match pyNum v with
          | .error e => .error e
          | .ok q => sumCities series i rest (acc + q * m.weight)

/-- Step 2 of `main`: `weighted.append(round(v, 1))` for each index in
`range(DAYS)`. -/
def weightedList (series : String → List JVal) : List ℕ → Except PyErr (List ℚ)
  | [] => .ok []
  | i :: rest =>
      match sumCities series i AIRPORTS 0 with
      | .error e => .error e
      | .ok s =>
          match weightedList series rest with
          | .error e => .error e
          | .ok tail => .ok (round1 s :: tail)

/-- Step 3 of `main`: `dod_change = [""]` followed by
`round(weighted[i] - weighted[i-1], 1)` for `i in range(1, DAYS)`.  In
`main` the `weighted` list always has length `DAYS`, so the `getD`
defaults are never consulted. -/
def dod_change (weighted : List ℚ) : List (Option ℚ) :=
  none :: (List.range' 1 (DAYS - 1)).map
    (fun i => some (round1 (weighted.getD i 0 - weighted.getD (i - 1) 0)))

/-- The inner accumulation of step 4 of `main`: walk the airports table
accumulating `(total, wsum)`, adding `val * weight` and `weight` for each
city whose normals map contains `md`. -/
def normalsFold (mapsOf : String → List (String × ℚ)) (md : String) :
    List (String × Meta) → ℚ × ℚ → ℚ × ℚ
  | [], acc => acc
  | (c, m) :: rest, acc =>
      match (mapsOf c).lookup md with
      | some v => normalsFold mapsOf md rest (acc.1 + v * m.weight, acc.2 + m.weight)
      | none => normalsFold mapsOf md rest acc

/-- One entry of the weighted-normals column:
`round(total, 1) if wsum > 0 else ""`.  Note the source rounds the raw
`total` and does not divide by `wsum`. -/
def combineNormals (mapsOf : String → List (String × ℚ)) (md : String) : Option ℚ :=
  let tw := normalsFold mapsOf md AIRPORTS (0, 0)
  if tw.2 > 0 then some (round1 tw.1) else none

/-- One CSV/report row: date, weighted average, day-over-day change
(absent on the first row), and the two weighted normals (absent when no
station contributed).  The weighted average is total because step 2
always appends a number. -/
structure Row where
  date : String
  weighted_avg_f : ℚ
  day_over_day_change_f : Option ℚ
  normal_10yr_f : Option ℚ
  normal_30yr_f : Option ℚ
deriving DecidableEq

/-- The fixed CSV header row. -/
def CSV_HEADER : List String :=
  ["date", "weighted_avg_f", "day_over_day_change_f", "normal_10yr_f", "normal_30yr_f"]

/-- Step 5's row loop: for each `i in range(DAYS)` index all five
columns (each access can raise `IndexError`). -/
def buildRows (dates : List String) (ws : List ℚ) (dod n10 n30 : List (Option ℚ)) :
    List ℕ → Except PyErr (List Row)
  | [] => .ok []
  | i :: rest =>
      match pyIndex dates i with
      | .error e => .error e
      | .ok d =>
          match pyIndex ws i with
          | .error e => .error e
          | .ok w =>
              match pyIndex dod i with
              | .error e => .error e
              | .ok c =>
                  match pyIndex n10 i with
                  | .error e => .error e
                  | .ok a =>
                      match pyIndex n30 i with
                      | .error e => .error e
                      | .ok b =>
                          match buildRows dates ws dod n10 n30 rest with
                          | .error e => .error e
                          | .ok tail => .ok (⟨d, w, c, a, b⟩ :: tail)

/-- Everything the run writes: the CSV path (named after the first
forecast date), the CSV header and rows, and the per-row highlight
classes of the HTML document built from the same rows. -/
structure Output where
  out_path : String
  header : List String
  rows : List Row
  rowClasses : List String
deriving DecidableEq

/-- The whole pipeline `main`, as a function of the responses.  All file
writing happens after every fetch and computation, so an exception is an
`Except.error` result with no output.  Mirrors the source step by step:
(1) fetch forecasts, keeping the first station's dates as `dates_ref`;
(2) weighted forecast; (3) day-over-day changes; (4) normals fetches and
weighted normals per `dates_ref` month-day; (5) CSV path `dates_ref[0]`
and rows; (6) HTML row classes from the same rows. -/
def main (env : Env) : Except PyErr Output :=
  match fetchAll env AIRPORTS with
  | .error e => .error e
  | .ok fetched =>
      let dates_ref := (fetched.head?.map (fun p => p.2.1)).getD []
      match weightedList (seriesOf fetched) (List.range DAYS) with
      | .error e => .error e
      | .ok weighted =>
          let dod := dod_change weighted
          let n10 := fun c => fetch_normals_doy_map (env.normals10 c)
          let n30 := fun c => fetch_normals_doy_map (env.normals30 c)
          let normal_10yr := dates_ref.map (fun d => combineNormals n10 (mdOf d))
          let normal_30yr := dates_ref.map (fun d => combineNormals n30 (mdOf d))
          match pyIndex dates_ref 0 with
          | .error e => .error e
          | .ok d0 =>
              match buildRows dates_ref weighted dod normal_10yr normal_30yr (List.range DAYS) with
              | .error e => .error e
              | .ok rows =>
                  .ok ⟨"data/weighted_ohio_forecast_" ++ d0 ++ ".csv", CSV_HEADER, rows,
                    rows.map (fun r => rowHighlight r.day_over_day_change_f)⟩

/-! ### Auxiliary definitions used by the statements -/

/-- The observations the bucket loop collects for a given month-day from
a zipped `(time, value)` list. -/
def collectObs (md : String) : List (String × JVal) → List ℚ :=
  List.filterMap (fun p => if mdOf p.1 = md then normalsEntry p.2 else none)

/-- The specification's notion of the valid observations of a month-day:
entries of the parallel arrays whose date has that month-day and whose
value is a (non-null) number. -/
def specValidObs (times : List String) (vals : List JVal) (md : String) : List ℚ :=
  (times.zip vals).filterMap (fun p =>
    if mdOf p.1 = md then
      match p.2 with
      | JVal.num q => some q
      | _ => none
    else none)

/-- A partial-coverage normals scenario: only Cleveland (weight 0.54)
has a value for month-day `07-04`, namely 80 °F. -/
def onlyClevelandMaps : String → List (String × ℚ) :=
  fun c => if c = "Cleveland" then [("07-04", 80)] else []

/-- 15 forecast dates (all the same calendar day, which the pipeline
allows: dates are opaque strings to it). -/
def datesRep : List String := List.replicate DAYS "2025-01-01"

/-- 15 forecast values of 50 °F. -/
def qsFifty : List ℚ := List.replicate DAYS 50

/-- A fully successful world: every station returns a complete 15-day
forecast and a normals payload covering month-day `01-01`. -/
def envFull : Env :=
  ⟨fun _ => .ok datesRep (qsFifty.map JVal.num),
   fun _ => some (["2025-01-01"], [JVal.num 60]),
   fun _ => some (["2025-01-01"], [JVal.num 60])⟩

/-- A world in which every forecast fetch fails. -/
def envAllFail : Env := ⟨fun _ => .fail, fun _ => none, fun _ => none⟩

/-- A world in which every station returns a 1-day series (shorter than
the 15 days the combiner indexes). -/
def envShort : Env :=
  ⟨fun _ => .ok ["2025-01-01"] [JVal.num 50], fun _ => none, fun _ => none⟩

/-- A world where Akron's forecast dates are the junk string `"x"` (its
values and every other station's payload being unremarkable). -/
def envAkronX : Env :=
  ⟨fun c => if c = "Akron" then .ok ["x"] [JVal.num 50]
    else .ok ["2025-01-01"] [JVal.num 50],
   fun _ => none, fun _ => none⟩

/-- Like `envAkronX` but with Akron's dates replaced by `"y"`. -/
def envAkronY : Env :=
  ⟨fun c => if c = "Akron" then .ok ["y"] [JVal.num 50]
    else .ok ["2025-01-01"] [JVal.num 50],
   fun _ => none, fun _ => none⟩

/-! ### Lemmas about the normals aggregation -/

lemma collectObs_cons (md : String) (t : String) (v : JVal) (rest : List (String × JVal)) :
    collectObs md ((t, v) :: rest) =
      (if mdOf t = md then normalsEntry v else none).toList ++ collectObs md rest := by
  cases h : normalsEntry v <;> by_cases hm : mdOf t = md <;>
    simp [collectObs, List.filterMap_cons, h, hm]

lemma lookup_addBucket_self (bs : List (String × List ℚ)) (md : String) (q : ℚ) :
    (addBucket bs md q).lookup md = some (((bs.lookup md).getD []) ++ [q]) := by
  induction bs with
  | nil => simp [addBucket, List.lookup]
  | cons p rest ih =>
      obtain ⟨k, arr⟩ := p
      by_cases h : k = md
      · subst h; simp [addBucket, List.lookup]
      · have h2 : (md == k) = false := by simpa [beq_iff_eq] using (Ne.symm h)
        simp [addBucket, h, List.lookup, h2, ih]

lemma lookup_addBucket_ne (bs : List (String × List ℚ)) (md md' : String) (q : ℚ)
    (h : md' ≠ md) : (addBucket bs md q).lookup md' = bs.lookup md' := by
  have h0 : (md' == md) = false := by simpa [beq_iff_eq] using h
  induction bs with
  | nil => simp [addBucket, List.lookup, h0]
  | cons p rest ih =>
      obtain ⟨k, arr⟩ := p
      by_cases hk : k = md
      · subst hk
        have h2 : (md' == k) = false := by simpa [beq_iff_eq] using h
        simp [addBucket, List.lookup, h2]
      · cases h3 : (md' == k) <;> simp [addBucket, hk, List.lookup, h3, ih]

lemma buildBuckets_lookup (l : List (String × JVal)) :
    ∀ (bs : List (String × List ℚ)) (md : String),
      (buildBuckets l bs).lookup md =
        match bs.lookup md with
        | some arr => some (arr ++ collectObs md l)
        | none => if collectObs md l = [] then none else some (collectObs md l) := by
  induction l with
  | nil => intro bs md; cases h : bs.lookup md <;> simp [buildBuckets, collectObs, h]
  | cons p rest ih =>
      intro bs md
      obtain ⟨t, v⟩ := p
      cases hv : normalsEntry v with
      | none => simp [buildBuckets, hv, ih, collectObs_cons]
      | some q =>
          by_cases hm : mdOf t = md
          · subst hm
            rw [buildBuckets, hv]
            simp only [ih, lookup_addBucket_self, collectObs_cons, hv]
            cases h : bs.lookup (mdOf t) <;> simp [h]
          · rw [buildBuckets, hv]
            simp only [ih, lookup_addBucket_ne bs (mdOf t) md q (Ne.symm hm),
              collectObs_cons, hv, hm]
            simp

lemma addBucket_snd_ne_nil (md : String) (q : ℚ) :
    ∀ (bs : List (String × List ℚ)), (∀ p ∈ bs, p.2 ≠ []) →
      ∀ p ∈ addBucket bs md q, p.2 ≠ [] := by
  intro bs
  induction bs with
  | nil =>
      intro _ p hp
      simp only [addBucket, List.mem_singleton] at hp
      subst hp; simp
  | cons b rest ih =>
      obtain ⟨k, arr⟩ := b
      intro hbs p hp
      by_cases h : k = md
      · subst h
        rw [addBucket, if_pos rfl] at hp
        rcases List.mem_cons.mp hp with h1 | h1
        · subst h1; simp
        · exact hbs p (List.mem_cons_of_mem _ h1)
      · rw [addBucket, if_neg h] at hp
        rcases List.mem_cons.mp hp with h1 | h1
        · subst h1; exact hbs (k, arr) (List.mem_cons_self _ _)
        · exact ih (fun x hx => hbs x (List.mem_cons_of_mem _ hx)) p h1

lemma buildBuckets_snd_ne_nil (l : List (String × JVal)) :
    ∀ bs, (∀ p ∈ bs, p.2 ≠ []) → ∀ p ∈ buildBuckets l bs, p.2 ≠ [] := by
  induction l with
  | nil => intro bs hbs; simpa [buildBuckets] using hbs
  | cons e rest ih =>
      intro bs hbs
      obtain ⟨t, v⟩ := e
      cases hv : normalsEntry v with
      | none => simpa [buildBuckets, hv] using ih bs hbs
      | some q =>
          simpa [buildBuckets, hv] using ih _ (addBucket_snd_ne_nil (mdOf t) q bs hbs)

lemma lookup_bucketsRound (bs : List (String × List ℚ)) (hbs : ∀ p ∈ bs, p.2 ≠ [])
    (md : String) :
    (bs.filterMap (fun p => if p.2.isEmpty then none
        else some (p.1, round1 (p.2.sum / (p.2.length : ℚ))))).lookup md
      = (bs.lookup md).map (fun arr => round1 (arr.sum / (arr.length : ℚ))) := by
  induction bs with
  | nil => simp [List.lookup]
  | cons b rest ih =>
      obtain ⟨k, arr⟩ := b
      have harr : arr ≠ [] := hbs (k, arr) (List.mem_cons_self _ _)
      have harr2 : arr.isEmpty = false := by simpa [List.isEmpty_iff] using harr
      have ih2 := ih (fun x hx => hbs x (List.mem_cons_of_mem _ hx))
      cases h3 : (md == k)
      · simp only [List.filterMap_cons, harr2, List.lookup, h3]
        simpa [harr2] using ih2
      · simp [List.filterMap_cons, harr2, harr, List.lookup, h3]

/-- Characterization of the full normals aggregation: the resulting map
holds exactly the month-days with at least one collected observation,
each mapped to the rounded mean of its observations. -/
lemma fetch_normals_lookup (times : List String) (vals : List JVal)
    (hlen : times.length = vals.length) (md : String) :
    (fetch_normals_doy_map (some (times, vals))).lookup md =
      (if collectObs md (times.zip vals) = [] then none
       else some (round1 ((collectObs md (times.zip vals)).sum /
         ((collectObs md (times.zip vals)).length : ℚ)))) := by
  rcases times with _ | ⟨t, ts⟩
  · have : vals = [] := by simpa using hlen.symm
    subst this
    simp [fetch_normals_doy_map, collectObs, List.lookup]
  · rcases vals with _ | ⟨v, vs⟩
    · simp at hlen
    · rw [fetch_normals_doy_map]
      rw [if_neg (by simp [hlen])]
      rw [lookup_bucketsRound _ (buildBuckets_snd_ne_nil _ [] (by simp))]
      rw [buildBuckets_lookup]
      simp only [List.lookup]
      split <;> simp_all

lemma buildBuckets_append (l1 l2 : List (String × JVal)) (bs : List (String × List ℚ)) :
    buildBuckets (l1 ++ l2) bs = buildBuckets l2 (buildBuckets l1 bs) := by
  induction l1 generalizing bs with
  | nil => simp [buildBuckets]
  | cons e rest ih =>
      obtain ⟨t, v⟩ := e
      cases hv : normalsEntry v <;> simp [buildBuckets, hv, ih]

/-! ### Lemmas about the pipeline -/

lemma fetchAll_ok_iff (env : Env) (l : List (String × Meta)) (r : List (String × List String × List JVal)) :
    fetchAll env l = .ok r ↔
      ((∀ p ∈ l, env.forecast p.1 ≠ .fail) ∧
        r = l.map (fun p => (p.1, fcData (env.forecast p.1)))) := by
  induction l generalizing r with
  | nil => simp [fetchAll]
  | cons p rest ih =>
      obtain ⟨c, m⟩ := p
      cases hc : env.forecast c with
      | fail => simp [fetchAll, hc]
      | ok ts vs =>
          cases hr : fetchAll env rest with
          | error e =>
              have : ¬ ((∀ p ∈ rest, env.forecast p.1 ≠ .fail) ∧
                  (rest.map (fun p => (p.1, fcData (env.forecast p.1)))
                    = rest.map (fun p => (p.1, fcData (env.forecast p.1))))) := by
                intro hh
                have := (ih (rest.map (fun p => (p.1, fcData (env.forecast p.1))))).mpr
                  ⟨hh.1, rfl⟩
                rw [hr] at this
                exact Except.noConfusion this
              simp only [fetchAll, hc, hr]
              constructor
              · intro hh; exact absurd hh Except.noConfusion
              · intro hh
                exact absurd ⟨fun p hp => hh.1 p (List.mem_cons_of_mem _ hp), rfl⟩ this
          | ok tail =>
              have htail := (ih tail).mp hr
              simp only [fetchAll, hc, hr, List.map_cons, List.mem_cons]
              constructor
              · intro hh
                injection hh with hh
                subst hh
                refine ⟨fun p hp => ?_, by simp [hc, fcData, htail.2]⟩
                rcases hp with rfl | hp
                · simp [hc]
                · exact htail.1 p hp
              · intro hh
                rw [hh.2]
                simp [fcData, htail.2]

lemma pyIndex_eq_ok {α : Type} (l : List α) (i : ℕ) (d : α) (h : i < l.length) :
    pyIndex l i = .ok (l.getD i d) := by
  simp [pyIndex, h, List.getD_eq_getElem?_getD, List.getElem?_eq_getElem h]

lemma pyIndex_ok_inv {α : Type} {l : List α} {i : ℕ} {a : α} (d : α)
    (h : pyIndex l i = .ok a) : i < l.length ∧ l.getD i d = a := by
  by_cases hi : i < l.length
  · refine ⟨hi, ?_⟩
    rw [pyIndex_eq_ok l i d hi] at h
    injection h
  · rw [pyIndex, dif_neg hi] at h
    exact absurd h Except.noConfusion

lemma sumCities_ok_of (series : String → List JVal) (i : ℕ) (vq : String → ℚ) :
    ∀ (l : List (String × Meta)) (acc : ℚ),
      (∀ p ∈ l, pyIndex (series p.1) i = .ok (JVal.num (vq p.1))) →
      sumCities series i l acc = .ok (acc + (l.map (fun p => vq p.1 * p.2.weight)).sum) := by
  intro l
  induction l with
  | nil => intro acc _; simp [sumCities]
  | cons p rest ih =>
      intro acc hall
      obtain ⟨c, m⟩ := p
      have hc := hall (c, m) (List.mem_cons_self _ _)
      rw [sumCities, hc]
      simp only [pyNum]
      rw [ih (acc + vq c * m.weight) (fun x hx => hall x (List.mem_cons_of_mem _ hx))]
      simp [add_assoc]

lemma sumCities_ok_mem (series : String → List JVal) (i : ℕ) :
    ∀ (l : List (String × Meta)) (acc s : ℚ),
      sumCities series i l acc = .ok s →
      ∀ p ∈ l, ∃ q, pyIndex (series p.1) i = .ok (JVal.num q) := by
  intro l
  induction l with
  | nil => simp
  | cons p rest ih =>
      intro acc s hok x hx
      obtain ⟨c, m⟩ := p
      rw [sumCities] at hok
      cases hv : pyIndex (series c) i with
      | error e => rw [hv] at hok; exact absurd hok Except.noConfusion
      | ok v =>
          rw [hv] at hok
          cases v with
          | num q =>
              simp only [pyNum] at hok
              rcases List.mem_cons.mp hx with rfl | hx2
              · exact ⟨q, hv⟩
              · exact ih _ _ hok x hx2
          | null => simp [pyNum] at hok
          | numStr q2 => simp [pyNum] at hok
          | bad => simp [pyNum] at hok

lemma weightedList_ok_of (series : String → List JVal) (f : ℕ → ℚ) :
    ∀ idxs : List ℕ,
      (∀ i ∈ idxs, sumCities series i AIRPORTS 0 = .ok (f i)) →
      weightedList series idxs = .ok (idxs.map (fun i => round1 (f i))) := by
  intro idxs
  induction idxs with
  | nil => intro _; simp [weightedList]
  | cons i rest ih =>
      intro hall
      rw [weightedList, hall i (List.mem_cons_self _ _),
        ih (fun j hj => hall j (List.mem_cons_of_mem _ hj))]
      simp

lemma weightedList_ok_mem (series : String → List JVal) :
    ∀ (idxs : List ℕ) (ws : List ℚ), weightedList series idxs = .ok ws →
      ∀ i ∈ idxs, ∃ s, sumCities series i AIRPORTS 0 = .ok s := by
  intro idxs
  induction idxs with
  | nil => simp
  | cons i rest ih =>
      intro ws hok j hj
      rw [weightedList] at hok
      cases hs : sumCities series i AIRPORTS 0 with
      | error e => rw [hs] at hok; exact absurd hok Except.noConfusion
      | ok s =>
          rw [hs] at hok
          rcases List.mem_cons.mp hj with rfl | hj2
          · exact ⟨s, hs⟩
          · cases ht : weightedList series rest with
            | error e => rw [ht] at hok; exact absurd hok Except.noConfusion
            | ok tail => exact ih tail ht j hj2

lemma buildRows_ok_of (dates : List String) (ws : List ℚ) (dod n10 n30 : List (Option ℚ)) :
    ∀ idxs : List ℕ,
      (∀ i ∈ idxs, i < dates.length ∧ i < ws.length ∧ i < dod.length ∧
        i < n10.length ∧ i < n30.length) →
      buildRows dates ws dod n10 n30 idxs = .ok (idxs.map (fun i =>
        ⟨dates.getD i "", ws.getD i 0, dod.getD i none, n10.getD i none, n30.getD i none⟩)) := by
  intro idxs
  induction idxs with
  | nil => intro _; simp [buildRows]
  | cons i rest ih =>
      intro hall
      obtain ⟨h1, h2, h3, h4, h5⟩ := hall i (List.mem_cons_self _ _)
      rw [buildRows, pyIndex_eq_ok dates i "" h1, pyIndex_eq_ok ws i 0 h2,
        pyIndex_eq_ok dod i none h3, pyIndex_eq_ok n10 i none h4,
        pyIndex_eq_ok n30 i none h5,
        ih (fun j hj => hall j (List.mem_cons_of_mem _ hj))]
      simp

lemma buildRows_ok_dates (dates : List String) (ws : List ℚ) (dod n10 n30 : List (Option ℚ)) :
    ∀ (idxs : List ℕ) (rows : List Row),
      buildRows dates ws dod n10 n30 idxs = .ok rows →
      rows.map Row.date = idxs.map (fun i => dates.getD i "") := by
  intro idxs
  induction idxs with
  | nil => intro rows h; simp [buildRows] at h; subst h; simp
  | cons i rest ih =>
      intro rows h
      rw [buildRows] at h
      cases hd : pyIndex dates i with
      | error e => rw [hd] at h; exact absurd h Except.noConfusion
      | ok d =>
          rw [hd] at h
          cases hw : pyIndex ws i with
          | error e => rw [hw] at h; exact absurd h Except.noConfusion
          | ok w =>
              rw [hw] at h
              cases hc : pyIndex dod i with
              | error e => rw [hc] at h; exact absurd h Except.noConfusion
              | ok c =>
                  rw [hc] at h
                  cases ha : pyIndex n10 i with
                  | error e => rw [ha] at h; exact absurd h Except.noConfusion
                  | ok a =>
                      rw [ha] at h
                      cases hb : pyIndex n30 i with
                      | error e => rw [hb] at h; exact absurd h Except.noConfusion
                      | ok b =>
                          rw [hb] at h
                          cases ht : buildRows dates ws dod n10 n30 rest with
                          | error e => rw [ht] at h; exact absurd h Except.noConfusion
                          | ok tail =>
                              rw [ht] at h
                              injection h with h
                              subst h
                              have hdd := (pyIndex_ok_inv "" hd).2
                              rw [List.map_cons, List.map_cons, ih tail ht, hdd]

lemma fetchAll_error_inv (env : Env) :
    ∀ (l : List (String × Meta)) (e : PyErr), fetchAll env l = .error e →
      e = .httpErr ∧ ∃ p ∈ l, env.forecast p.1 = .fail := by
  intro l
  induction l with
  | nil => simp [fetchAll]
  | cons p rest ih =>
      intro e h
      obtain ⟨c, m⟩ := p
      cases hc : env.forecast c with
      | fail =>
          rw [fetchAll, hc] at h
          injection h with h
          exact ⟨h.symm, (c, m), List.mem_cons_self _ _, hc⟩
      | ok ts vs =>
          rw [fetchAll, hc] at h
          cases hr : fetchAll env rest with
          | error e2 =>
              rw [hr] at h
              injection h with h
              obtain ⟨he, p2, hp2, hf2⟩ := ih e2 hr
              exact ⟨h ▸ he, p2, List.mem_cons_of_mem _ hp2, hf2⟩
          | ok tail => rw [hr] at h; exact absurd h Except.noConfusion

lemma dod_change_length (ws : List ℚ) : (dod_change ws).length = DAYS := by
  simp [dod_change, DAYS]

lemma dod_change_getD_zero (ws : List ℚ) : (dod_change ws).getD 0 none = none := rfl

lemma dod_change_getD_pos (ws : List ℚ) (i : ℕ) (h1 : 1 ≤ i) (h2 : i < DAYS) :
    (dod_change ws).getD i none =
      some (round1 (ws.getD i 0 - ws.getD (i - 1) 0)) := by
  obtain ⟨j, rfl⟩ : ∃ j, i = j + 1 := ⟨i - 1, by omega⟩
  have hj : j < 14 := by have h3 : j + 1 < 15 := h2; omega
  simp [dod_change, DAYS, List.getD_eq_getElem?_getD, List.getElem?_map,
    List.getElem?_range', hj, Nat.add_comm 1 j]

lemma dod_change_filter_isNone (ws : List ℚ) :
    ((dod_change ws).filter (fun o => o.isNone)).length = 1 := by
  simp [dod_change, List.filter_map]

lemma combineNormals_some_of_all (mapsOf : String → List (String × ℚ)) (md : String)
    (h : ∀ p ∈ AIRPORTS, ∃ v, (mapsOf p.1).lookup md = some v) :
    (combineNormals mapsOf md).isSome := by
  obtain ⟨v1, h1⟩ := h ("Cleveland", ⟨414117/10000, -818498/10000, 54/100⟩) (by simp [AIRPORTS])
  obtain ⟨v2, h2⟩ := h ("Akron", ⟨409163/10000, -814422/10000, 32/100⟩) (by simp [AIRPORTS])
  obtain ⟨v3, h3⟩ := h ("Youngstown", ⟨412607/10000, -806791/10000, 13/100⟩) (by simp [AIRPORTS])
  obtain ⟨v4, h4⟩ := h ("Columbus", ⟨399980/10000, -828919/10000, 1/100⟩) (by simp [AIRPORTS])
  rw [combineNormals]
  simp only [AIRPORTS, normalsFold, h1, h2, h3, h4]
  rw [if_pos (by norm_num)]
  rfl

lemma seriesOf_map_congr (g1 g2 : String × Meta → List String × List JVal) :
    ∀ l : List (String × Meta), (∀ p ∈ l, (g1 p).2 = (g2 p).2) →
      seriesOf (l.map (fun p => (p.1, g1 p))) = seriesOf (l.map (fun p => (p.1, g2 p))) := by
  intro l
  induction l with
  | nil => intro _; rfl
  | cons p rest ih =>
      intro h
      funext c
      have hrec := congrFun (ih (fun x hx => h x (List.mem_cons_of_mem _ hx))) c
      cases hc : (c == p.1)
      · simpa [seriesOf, List.lookup, hc] using hrec
      · simp [seriesOf, List.lookup, hc, h p (List.mem_cons_self _ _)]

lemma seriesOf_airports (dataOf : String × Meta → List String × List JVal) :
    ∀ p ∈ AIRPORTS, seriesOf (AIRPORTS.map (fun x => (x.1, dataOf x))) p.1 = (dataOf p).2 := by
  intro p hp
  simp only [AIRPORTS, List.mem_cons, List.not_mem_nil, or_false] at hp
  rcases hp with rfl | rfl | rfl | rfl <;> simp [AIRPORTS, seriesOf, List.lookup]

/-! ### Claim theorems -/

/-- C1: evaluation of the weighted-normals combiner at the failing
input.  When only Cleveland (weight 0.54) contributes the value 80 for
month-day `07-04`, the code emits `round(0.54 * 80, 1) = 43.2` — it
never divides the accumulated total by the contributing weight sum — so
the combined normal is 43.2, not the 80.0 that the claimed
renormalization `Σ w·v / Σ w` requires. -/
theorem C1_combineNormals_no_renormalization :
    combineNormals onlyClevelandMaps "07-04" = some (216/5) ∧ ((216 : ℚ)/5) ≠ 80 := by
  constructor
  · norm_num +decide [combineNormals, normalsFold, AIRPORTS, onlyClevelandMaps, List.lookup,
      round1, roundHalfEven, floorQ]
  · norm_num

/-- C2 counterexample: a non-numeric value in the value array does NOT
make the whole station/window mapping empty — the entry is skipped
individually and the remaining valid entries are kept.  With times
`["2020-01-01", "2020-01-02"]` and values `[<non-numeric>, 5]` the
result is `{"01-02": 5.0}`, not `{}`. -/
theorem C2_nonnumeric_keeps_other_entries :
    fetch_normals_doy_map (some (["2020-01-01", "2020-01-02"], [JVal.bad, JVal.num 5]))
        = [("01-02", 5)] ∧
      ([("01-02", (5 : ℚ))] : List (String × ℚ)) ≠ [] := by
  constructor
  · have h1 : ("2020-01-01".drop 5) = "01-01" := rfl
    have h2 : ("2020-01-02".drop 5) = "01-02" := rfl
    norm_num +decide [fetch_normals_doy_map, buildBuckets, addBucket, normalsEntry, mdOf,
      h1, h2, List.filterMap_cons, round1, roundHalfEven, floorQ]
  · simp

/-- C2 (amended): failures that reach the fetch's outer handler or its
payload guard — a failed request, a missing `daily` section, empty or
mismatched arrays — yield an empty mapping for the whole station/window,
but a non-numeric value inside the value array is skipped individually
by the per-entry handler, leaving the mapping of the remaining entries
unchanged. -/
theorem C2_failure_granularity :
    fetch_normals_doy_map none = [] ∧
    (∀ ts vs, ts.length ≠ vs.length → fetch_normals_doy_map (some (ts, vs)) = []) ∧
    (∀ vs, fetch_normals_doy_map (some ([], vs)) = []) ∧
    (∀ ts, fetch_normals_doy_map (some (ts, [])) = []) ∧
    (∀ ta tb va vb t, ta.length = va.length → tb.length = vb.length →
      fetch_normals_doy_map (some (ta ++ t :: tb, va ++ JVal.bad :: vb)) =
        fetch_normals_doy_map (some (ta ++ tb, va ++ vb))) := by
  refine ⟨rfl, ?_, ?_, ?_, ?_⟩
  · intro ts vs h
    simp [fetch_normals_doy_map, h]
  · intro vs; simp [fetch_normals_doy_map]
  · intro ts; simp [fetch_normals_doy_map]
  · intro ta tb va vb t h1 h2
    have hz : (ta ++ t :: tb).zip (va ++ JVal.bad :: vb) =
        ta.zip va ++ (t, JVal.bad) :: tb.zip vb := by
      rw [List.zip_append h1]; rfl
    have hb : ∀ bs, buildBuckets ((ta ++ t :: tb).zip (va ++ JVal.bad :: vb)) bs =
        buildBuckets ((ta ++ tb).zip (va ++ vb)) bs := by
      intro bs
      rw [hz, List.zip_append h1, buildBuckets_append, buildBuckets_append]
      simp [buildBuckets, normalsEntry]
    by_cases hta0 : ta ++ tb = []
    · obtain ⟨rfl, rfl⟩ : ta = [] ∧ tb = [] := List.append_eq_nil.mp hta0
      have hva : va = [] := by simpa using h1.symm
      have hvb : vb = [] := by simpa using h2.symm
      subst hva; subst hvb
      simp [fetch_normals_doy_map, buildBuckets, normalsEntry]
    · have hlen3 : (ta ++ t :: tb).length = (va ++ JVal.bad :: vb).length := by
        simp [h1, h2]
      have hlen4 : (ta ++ tb).length = (va ++ vb).length := by simp [h1, h2]
      have hne1 : ta ++ t :: tb ≠ [] := by
        rcases ta with _ | _ <;> simp
      have hne2 : va ++ JVal.bad :: vb ≠ [] := by
        rcases va with _ | _ <;> simp
      have hne4 : va ++ vb ≠ [] := by
        intro hh
        apply hta0
        rw [← List.length_eq_zero, hlen4, hh]
        rfl
      rw [fetch_normals_doy_map, fetch_normals_doy_map,
        if_neg (by simp [hne1, hne2, hlen3]), if_neg (by simp [hta0, hne4, hlen4]), hb]

/-- C2 witness: instantiating the per-entry-skip part at a concrete
payload with one non-numeric value. -/
theorem C2_failure_granularity_witness :
    fetch_normals_doy_map (some (["2020-01-01", "2020-01-02"], [JVal.num 5, JVal.bad])) =
      fetch_normals_doy_map (some (["2020-01-01"], [JVal.num 5])) :=
  C2_failure_granularity.2.2.2.2 ["2020-01-01"] [] [JVal.num 5] [] "2020-01-02" rfl rfl

/-- C3: a present change `v` is classified `"warm"` exactly when
`v ≥ 2.0`, `"cool"` exactly when `v ≤ −2.0`, and neutral (no class)
otherwise; the threshold itself is inclusive on both sides, and 1.9 °F
either way is neutral. -/
theorem C3_highlight_classification : ∀ v : ℚ,
    (rowHighlight (some v) = "warm" ↔ DOD_HIGHLIGHT ≤ v) ∧
    (rowHighlight (some v) = "cool" ↔ v ≤ -DOD_HIGHLIGHT) ∧
    (rowHighlight (some v) = "" ↔ -DOD_HIGHLIGHT < v ∧ v < DOD_HIGHLIGHT) ∧
    rowHighlight (some (2 : ℚ)) = "warm" ∧ rowHighlight (some (-2 : ℚ)) = "cool" ∧
    rowHighlight (some (19/10 : ℚ)) = "" ∧ rowHighlight (some (-19/10 : ℚ)) = "" := by
  have hwc : ("warm" : String) ≠ "cool" := by decide
  have hwe : ("warm" : String) ≠ "" := by decide
  have hce : ("cool" : String) ≠ "" := by decide
  intro v
  refine ⟨?_, ?_, ?_, ?_, ?_, ?_, ?_⟩ <;>
    simp only [rowHighlight, DOD_HIGHLIGHT] <;> split_ifs <;>
    simp_all <;> linarith

/-- C4: the day-over-day list starts with an absent entry, and for
`1 ≤ i < DAYS` its `i`-th entry is `round(weighted[i] − weighted[i−1], 1)`. -/
theorem C4_dod_change_spec (ws : List ℚ) :
    (dod_change ws).length = DAYS ∧
    (dod_change ws)[0]? = some none ∧
    ∀ i, 1 ≤ i → i < DAYS →
      (dod_change ws)[i]? = some (some (round1 (ws.getD i 0 - ws.getD (i - 1) 0))) := by
  refine ⟨by simp [dod_change, DAYS], rfl, ?_⟩
  intro i h1 h2
  obtain ⟨j, rfl⟩ : ∃ j, i = j + 1 := ⟨i - 1, by omega⟩
  have hj : j < 14 := by have h3 : j + 1 < 15 := h2; omega
  simp [dod_change, DAYS, List.getElem?_map, List.getElem?_range', hj, Nat.add_comm 1 j]

/-- C4 witness: the first change is absent and the second equals the
rounded difference, on a concrete 15-entry weighted series. -/
theorem C4_dod_change_spec_witness :
    (dod_change qsFifty).length = DAYS ∧
    (dod_change qsFifty)[0]? = some none ∧
    (dod_change qsFifty)[1]? =
      some (some (round1 (qsFifty.getD 1 0 - qsFifty.getD 0 0))) :=
  ⟨(C4_dod_change_spec qsFifty).1, (C4_dod_change_spec qsFifty).2.1,
    (C4_dod_change_spec qsFifty).2.2 1 (by decide) (by decide)⟩

/-- C5: for equal-length parallel arrays of dates and null-or-numeric
values, the aggregated mapping contains a month-day exactly when it has
at least one non-null observation, and then maps it to the arithmetic
mean of those observations rounded to one decimal; month-days with no
valid observation are absent. -/
theorem C5_normals_aggregation (times : List String) (vals : List JVal)
    (hlen : times.length = vals.length)
    (hshape : ∀ v ∈ vals, v = JVal.null ∨ ∃ q, v = JVal.num q) :
    ∀ md, (fetch_normals_doy_map (some (times, vals))).lookup md =
      (if specValidObs times vals md = [] then none
       else some (round1 ((specValidObs times vals md).sum /
         ((specValidObs times vals md).length : ℚ)))) := by
  intro md
  have hco : collectObs md (times.zip vals) = specValidObs times vals md := by
    apply List.filterMap_congr
    intro p hp
    have hv : p.2 ∈ vals := (List.of_mem_zip hp).2
    rcases hshape p.2 hv with h | ⟨q, h⟩ <;> rw [h] <;> rfl
  rw [fetch_normals_lookup times vals hlen md, hco]

/-- C5 witness: three observations across years for month-days `02-29`
and `02-28`, one of them null; the null is excluded and the mapping is
determined by the remaining observations. -/
theorem C5_normals_aggregation_witness :
    (fetch_normals_doy_map
        (some (["2020-02-29", "2021-02-28", "2024-02-29"],
          [JVal.num 30, JVal.num 40, JVal.null]))).lookup "02-29" =
      (if specValidObs ["2020-02-29", "2021-02-28", "2024-02-29"]
          [JVal.num 30, JVal.num 40, JVal.null] "02-29" = [] then none
       else some (round1 ((specValidObs ["2020-02-29", "2021-02-28", "2024-02-29"]
          [JVal.num 30, JVal.num 40, JVal.null] "02-29").sum /
         ((specValidObs ["2020-02-29", "2021-02-28", "2024-02-29"]
          [JVal.num 30, JVal.num 40, JVal.null] "02-29").length : ℚ)))) :=
  C5_normals_aggregation _ _ rfl
    (by
      intro v hv
      fin_cases hv
      · exact Or.inr ⟨30, rfl⟩
      · exact Or.inr ⟨40, rfl⟩
      · exact Or.inl rfl) "02-29"

/-- C7: if any station's forecast fetch fails, the whole run aborts with
a propagated error; since the model's only output channel is the `ok`
result and all writes happen after every fetch, no file is produced. -/
theorem C7_forecast_failure_aborts (env : Env)
    (h : ∃ p ∈ AIRPORTS, env.forecast p.1 = .fail) :
    ∃ e, main env = .error e := by
  cases hf : fetchAll env AIRPORTS with
  | error e => exact ⟨e, by rw [main, hf]⟩
  | ok r =>
      exfalso
      obtain ⟨p, hp, hfail⟩ := h
      exact ((fetchAll_ok_iff env AIRPORTS r).mp hf).1 p hp hfail

/-- C7 witness: in the world where every fetch fails, `main` yields an
error and hence no output. -/
theorem C7_forecast_failure_aborts_witness :
    ∃ e, main envAllFail = .error e :=
  C7_forecast_failure_aborts envAllFail
    ⟨("Cleveland", ⟨414117/10000, -818498/10000, 54/100⟩), by simp [AIRPORTS], rfl⟩

lemma pyIndex_map_num (qs : List ℚ) (i : ℕ) (h : i < qs.length) :
    pyIndex (qs.map JVal.num) i = .ok (JVal.num (qs.getD i 0)) := by
  have h2 : i < (qs.map JVal.num).length := by simpa using h
  rw [pyIndex_eq_ok (qs.map JVal.num) i (JVal.num 0) h2]
  congr 1
  simp [List.getD_eq_getElem?_getD, List.getElem?_map, List.getElem?_eq_getElem h]

/-- C6: for stations holding numeric series, the per-index combination
accumulates exactly `Σ valueₛ[i] · weightₛ`; the sum is invariant under
permuting the station iteration order (hence so is its rounding); and
the combined series is the index-wise `round(Σ valueₛ[i] · weightₛ, 1)`. -/
theorem C6_weighted_combine (vals : String → List ℚ) :
    (∀ (l : List (String × Meta)) (i : ℕ), (∀ p ∈ l, i < (vals p.1).length) →
      sumCities (fun c => (vals c).map JVal.num) i l 0 =
        .ok ((l.map (fun p => (vals p.1).getD i 0 * p.2.weight)).sum)) ∧
    (∀ (l l2 : List (String × Meta)) (i : ℕ), l.Perm l2 →
      (∀ p ∈ l, i < (vals p.1).length) →
      sumCities (fun c => (vals c).map JVal.num) i l 0 =
        sumCities (fun c => (vals c).map JVal.num) i l2 0) ∧
    (∀ idxs : List ℕ, (∀ i ∈ idxs, ∀ p ∈ AIRPORTS, i < (vals p.1).length) →
      weightedList (fun c => (vals c).map JVal.num) idxs =
        .ok (idxs.map (fun i =>
          round1 ((AIRPORTS.map (fun p => (vals p.1).getD i 0 * p.2.weight)).sum)))) := by
  have hsum : ∀ (l : List (String × Meta)) (i : ℕ), (∀ p ∈ l, i < (vals p.1).length) →
      sumCities (fun c => (vals c).map JVal.num) i l 0 =
        .ok ((l.map (fun p => (vals p.1).getD i 0 * p.2.weight)).sum) := by
    intro l i hlt
    have h2 := sumCities_ok_of (fun c => (vals c).map JVal.num) i
      (fun c => (vals c).getD i 0) l 0
      (fun p hp => pyIndex_map_num (vals p.1) i (hlt p hp))
    rw [zero_add] at h2
    exact h2
  refine ⟨hsum, ?_, ?_⟩
  · intro l l2 i hperm hlt
    have hlt2 : ∀ p ∈ l2, i < (vals p.1).length :=
      fun p hp => hlt p (hperm.mem_iff.mpr hp)
    rw [hsum l i hlt, hsum l2 i hlt2]
    exact congrArg Except.ok
      ((hperm.map (fun p => (vals p.1).getD i 0 * p.2.weight)).sum_eq)
  · intro idxs hlt
    apply weightedList_ok_of
    intro i hi
    exact hsum AIRPORTS i (hlt i hi)

/-- C6 witness: instantiating the permutation part with the reversed
airports table and the combined-series part with indices 0 and 1. -/
theorem C6_weighted_combine_witness :
    (sumCities (fun _ => (qsFifty.map JVal.num)) 0 AIRPORTS 0 =
      sumCities (fun _ => (qsFifty.map JVal.num)) 0 AIRPORTS.reverse 0) ∧
    weightedList (fun _ => (qsFifty.map JVal.num)) [0, 1] =
      .ok ([0, 1].map (fun i =>
        round1 ((AIRPORTS.map (fun p => qsFifty.getD i 0 * p.2.weight)).sum))) :=
  ⟨(C6_weighted_combine (fun _ => qsFifty)).2.1 AIRPORTS AIRPORTS.reverse 0
      (List.reverse_perm AIRPORTS).symm
      (fun p _ => by simp [qsFifty, DAYS]),
    (C6_weighted_combine (fun _ => qsFifty)).2.2 [0, 1]
      (fun i hi p _ => by
        fin_cases hi <;> simp [qsFifty, DAYS])⟩

/-- C9: the forecast combiner indexes every station's value list at
indices `0..DAYS-1` and multiplies without a guard.  Given that all
fetches parsed (no HTTP failure), a completed run forces every station's
series to have length at least `DAYS` with a JSON number at each of
those indices; conversely a shorter series, or a null or otherwise
non-numeric entry at an accessed index, makes the run raise
(`IndexError`/`TypeError`) and return no output. -/
theorem C9_unguarded_indexing (env : Env) :
    (∀ out, main env = .ok out → ∀ p ∈ AIRPORTS,
      DAYS ≤ (fcData (env.forecast p.1)).2.length ∧
      ∀ i < DAYS, ∃ q, (fcData (env.forecast p.1)).2.getD i JVal.null = JVal.num q) ∧
    ((∃ p ∈ AIRPORTS, (fcData (env.forecast p.1)).2.length < DAYS ∨
        ∃ i < DAYS, ∀ q, (fcData (env.forecast p.1)).2.getD i JVal.null ≠ JVal.num q) →
      ∃ e, main env = .error e) := by
  have part1 : ∀ out, main env = .ok out → ∀ p ∈ AIRPORTS,
      DAYS ≤ (fcData (env.forecast p.1)).2.length ∧
      ∀ i < DAYS, ∃ q, (fcData (env.forecast p.1)).2.getD i JVal.null = JVal.num q := by
    intro out hmain p hp
    cases hf : fetchAll env AIRPORTS with
    | error e =>
        rw [main, hf] at hmain
        exact absurd hmain Except.noConfusion
    | ok fetched =>
        have hfe := ((fetchAll_ok_iff env AIRPORTS fetched).mp hf).2
        rw [main, hf] at hmain
        cases hw : weightedList (seriesOf fetched) (List.range DAYS) with
        | error e =>
            simp only [hw] at hmain
            exact absurd hmain Except.noConfusion
        | ok ws =>
            have hser : seriesOf fetched p.1 = (fcData (env.forecast p.1)).2 := by
              rw [hfe]
              exact seriesOf_airports (fun x => fcData (env.forecast x.1)) p hp
            have haux : ∀ i < DAYS, i < (fcData (env.forecast p.1)).2.length ∧
                ∃ q, (fcData (env.forecast p.1)).2.getD i JVal.null = JVal.num q := by
              intro i hi
              obtain ⟨s, hs⟩ := weightedList_ok_mem (seriesOf fetched)
                (List.range DAYS) ws hw i (List.mem_range.mpr hi)
              obtain ⟨q, hq⟩ := sumCities_ok_mem (seriesOf fetched) i AIRPORTS 0 s hs p hp
              rw [hser] at hq
              obtain ⟨hlt, hgd⟩ := pyIndex_ok_inv JVal.null hq
              exact ⟨hlt, q, hgd⟩
            have hD : DAYS - 1 < DAYS := by decide
            refine ⟨?_, fun i hi => (haux i hi).2⟩
            have h14 := (haux (DAYS - 1) hD).1
            omega
  refine ⟨part1, ?_⟩
  rintro ⟨p, hp, hbad⟩
  cases hm : main env with
  | error e => exact ⟨e, rfl⟩
  | ok out =>
      exfalso
      obtain ⟨hlen, hnum⟩ := part1 out hm p hp
      rcases hbad with hshort | ⟨i, hi, hne⟩
      · omega
      · obtain ⟨q, hq⟩ := hnum i hi
        exact hne q hq

/-- C9 witness: every station returns a 1-day series, so the run aborts
with an error instead of producing output. -/
theorem C9_unguarded_indexing_witness :
    ∃ e, main envShort = .error e :=
  (C9_unguarded_indexing envShort).2
    ⟨("Cleveland", ⟨414117/10000, -818498/10000, 54/100⟩), by simp [AIRPORTS],
      Or.inl (by decide)⟩

/-- C10: the report dates, the month-day keys for the normals lookups,
and the CSV filename all come from the first fetched station's
(Cleveland's) date list alone: two worlds that agree on every station's
forecast values, on Cleveland's dates and on the normals responses — but
may disagree arbitrarily on the other stations' date lists — produce
identical runs; and on success the output path embeds Cleveland's first
date and the row dates are Cleveland's dates. -/
theorem C10_first_station_dates (env env2 : Env)
    (hvals : ∀ p ∈ AIRPORTS,
      (env.forecast p.1 = .fail ↔ env2.forecast p.1 = .fail) ∧
      (fcData (env.forecast p.1)).2 = (fcData (env2.forecast p.1)).2)
    (htimes : (fcData (env.forecast "Cleveland")).1 = (fcData (env2.forecast "Cleveland")).1)
    (hn10 : env.normals10 = env2.normals10)
    (hn30 : env.normals30 = env2.normals30) :
    main env = main env2 ∧
    (∀ out, main env = .ok out →
      out.out_path = "data/weighted_ohio_forecast_" ++
        ((fcData (env.forecast "Cleveland")).1).getD 0 "" ++ ".csv" ∧
      out.rows.map Row.date =
        (List.range DAYS).map (fun i => ((fcData (env.forecast "Cleveland")).1).getD i "")) := by
  constructor
  · cases hf : fetchAll env AIRPORTS with
    | error e =>
        obtain ⟨he, p, hp, hfail⟩ := fetchAll_error_inv env AIRPORTS e hf
        cases hf2 : fetchAll env2 AIRPORTS with
        | error e2 =>
            obtain ⟨he2, _, _, _⟩ := fetchAll_error_inv env2 AIRPORTS e2 hf2
            rw [main, main, hf, hf2, he, he2]
        | ok r2 =>
            exfalso
            exact ((fetchAll_ok_iff env2 AIRPORTS r2).mp hf2).1 p hp
              (((hvals p hp).1).mp hfail)
    | ok fetched =>
        cases hf2 : fetchAll env2 AIRPORTS with
        | error e2 =>
            exfalso
            obtain ⟨he2, p, hp, hfail2⟩ := fetchAll_error_inv env2 AIRPORTS e2 hf2
            exact ((fetchAll_ok_iff env AIRPORTS fetched).mp hf).1 p hp
              (((hvals p hp).1).mpr hfail2)
        | ok fetched2 =>
            have hfe := ((fetchAll_ok_iff env AIRPORTS fetched).mp hf).2
            have hfe2 := ((fetchAll_ok_iff env2 AIRPORTS fetched2).mp hf2).2
            have hser : seriesOf fetched = seriesOf fetched2 := by
              rw [hfe, hfe2]
              exact seriesOf_map_congr _ _ AIRPORTS (fun p hp => (hvals p hp).2)
            have hdr : (fetched.head?.map (fun p => p.2.1)).getD [] =
                (fetched2.head?.map (fun p => p.2.1)).getD [] := by
              rw [hfe, hfe2]
              simpa [AIRPORTS] using htimes
            rw [main, main, hf, hf2]
            simp only [hser, hdr, hn10, hn30]
  · intro out hmain
    cases hf : fetchAll env AIRPORTS with
    | error e =>
        rw [main, hf] at hmain
        exact absurd hmain Except.noConfusion
    | ok fetched =>
        have hfe := ((fetchAll_ok_iff env AIRPORTS fetched).mp hf).2
        have hdr : (fetched.head?.map (fun p => p.2.1)).getD [] =
            (fcData (env.forecast "Cleveland")).1 := by
          rw [hfe]
          simp [AIRPORTS]
        rw [main, hf] at hmain
        cases hw : weightedList (seriesOf fetched) (List.range DAYS) with
        | error e =>
            simp only [hw] at hmain
            exact absurd hmain Except.noConfusion
        | ok ws =>
            simp only [hw] at hmain
            cases hd0 : pyIndex ((fetched.head?.map (fun p => p.2.1)).getD []) 0 with
            | error e =>
                simp only [hd0] at hmain
                exact absurd hmain Except.noConfusion
            | ok d0 =>
                simp only [hd0] at hmain
                cases hbr : buildRows ((fetched.head?.map (fun p => p.2.1)).getD []) ws
                    (dod_change ws)
                    (((fetched.head?.map (fun p => p.2.1)).getD []).map
                      (fun d => combineNormals
                        (fun c => fetch_normals_doy_map (env.normals10 c)) (mdOf d)))
                    (((fetched.head?.map (fun p => p.2.1)).getD []).map
                      (fun d => combineNormals
                        (fun c => fetch_normals_doy_map (env.normals30 c)) (mdOf d)))
                    (List.range DAYS) with
                | error e =>
                    simp only [hbr] at hmain
                    exact absurd hmain Except.noConfusion
                | ok rows =>
                    simp only [hbr] at hmain
                    have hout := hmain
                    injection hout with hout
                    subst hout
                    constructor
                    · have hd0v := (pyIndex_ok_inv "" hd0).2
                      rw [← hd0v, hdr]
                    · have hdates := buildRows_ok_dates _ _ _ _ _ _ _ hbr
                      rw [hdates, hdr]


/-- C10 witness: changing Akron's returned dates from `["x"]` to `["y"]`
does not change the run. -/
theorem C10_first_station_dates_witness :
    main envAkronX = main envAkronY ∧
    (∀ out, main envAkronX = .ok out →
      out.out_path = "data/weighted_ohio_forecast_" ++
        ((fcData (envAkronX.forecast "Cleveland")).1).getD 0 "" ++ ".csv" ∧
      out.rows.map Row.date =
        (List.range DAYS).map (fun i =>
          ((fcData (envAkronX.forecast "Cleveland")).1).getD i "")) :=
  C10_first_station_dates envAkronX envAkronY
    (by
      intro p hp
      simp only [AIRPORTS, List.mem_cons, List.not_mem_nil, or_false] at hp
      rcases hp with rfl | rfl | rfl | rfl <;>
        exact ⟨by simp [envAkronX, envAkronY], by simp [envAkronX, envAkronY, fcData]⟩)
    (by simp [envAkronX, envAkronY])
    rfl rfl

lemma sumCities_congr (s1 s2 : String → List JVal) (i : ℕ) :
    ∀ (l : List (String × Meta)) (acc : ℚ), (∀ p ∈ l, s1 p.1 = s2 p.1) →
      sumCities s1 i l acc = sumCities s2 i l acc := by
  intro l
  induction l with
  | nil => intro acc _; rfl
  | cons p rest ih =>
      intro acc h
      obtain ⟨c, m⟩ := p
      have hc := h (c, m) (List.mem_cons_self _ _)
      rw [sumCities, sumCities, hc]
      cases hv : pyIndex (s2 c) i with
      | error e => simp only [hv]
      | ok v =>
          simp only [hv]
          cases hq : pyNum v with
          | error e => simp only [hq]
          | ok q =>
              simp only [hq]
              exact ih _ (fun x hx => h x (List.mem_cons_of_mem _ hx))

lemma sumCities_map_num (vals : String → List ℚ) (l : List (String × Meta)) (i : ℕ)
    (hlt : ∀ p ∈ l, i < (vals p.1).length) :
    sumCities (fun c => (vals c).map JVal.num) i l 0 =
      .ok ((l.map (fun p => (vals p.1).getD i 0 * p.2.weight)).sum) := by
  have h2 := sumCities_ok_of (fun c => (vals c).map JVal.num) i
    (fun c => (vals c).getD i 0) l 0
    (fun p hp => pyIndex_map_num (vals p.1) i (hlt p hp))
  rw [zero_add] at h2
  exact h2

lemma getD_map_lt {α β : Type} (g : α → β) (l : List α) (i : ℕ) (h : i < l.length)
    (d : β) (d0 : α) : (l.map g).getD i d = g (l.getD i d0) := by
  simp [List.getD_eq_getElem?_getD, List.getElem?_map, List.getElem?_eq_getElem h]

lemma getD_mem_of_lt {α : Type} (l : List α) (i : ℕ) (h : i < l.length) (d : α) :
    l.getD i d ∈ l := by
  rw [List.getD_eq_getElem?_getD, List.getElem?_eq_getElem h]
  exact List.getElem_mem h

/-- C8: when all four stations return full 15-day numeric series and
both normals windows cover every month-day of the forecast range for
every station, `main` succeeds with exactly 15 rows, every row carrying
a weighted average (the column is total by construction, as step 2
always appends a number), no absent 10-year or 30-year normal cell, and
exactly one absent day-over-day change cell: the first row's. -/
theorem C8_full_scenario (env : Env) (tsf : String → List String) (qs : String → List ℚ)
    (hfc : ∀ p ∈ AIRPORTS, env.forecast p.1 = .ok (tsf p.1) ((qs p.1).map JVal.num))
    (hts : (tsf "Cleveland").length = DAYS)
    (hqs : ∀ p ∈ AIRPORTS, (qs p.1).length = DAYS)
    (hn10 : ∀ p ∈ AIRPORTS, ∀ d ∈ tsf "Cleveland",
      ((fetch_normals_doy_map (env.normals10 p.1)).lookup (mdOf d)).isSome)
    (hn30 : ∀ p ∈ AIRPORTS, ∀ d ∈ tsf "Cleveland",
      ((fetch_normals_doy_map (env.normals30 p.1)).lookup (mdOf d)).isSome) :
    ∃ out, main env = .ok out ∧
      out.rows.length = 15 ∧
      (∀ r ∈ out.rows, ∃ q : ℚ, r.weighted_avg_f = q) ∧
      (∀ r ∈ out.rows, (r.normal_10yr_f).isSome ∧ (r.normal_30yr_f).isSome) ∧
      (out.rows.map (fun r => r.day_over_day_change_f)).head? = some none ∧
      (out.rows.filter (fun r => (r.day_over_day_change_f).isNone)).length = 1 := by
  have hnofail : ∀ p ∈ AIRPORTS, env.forecast p.1 ≠ .fail := by
    intro p hp
    rw [hfc p hp]
    exact fun h => ForecastResp.noConfusion h
  have hf : fetchAll env AIRPORTS =
      .ok (AIRPORTS.map (fun p => (p.1, fcData (env.forecast p.1)))) :=
    (fetchAll_ok_iff env AIRPORTS _).mpr ⟨hnofail, rfl⟩
  have hclev : ("Cleveland", (⟨414117/10000, -818498/10000, 54/100⟩ : Meta)) ∈ AIRPORTS := by
    simp [AIRPORTS]
  have hdr : (((AIRPORTS.map (fun p => (p.1, fcData (env.forecast p.1)))).head?.map
      (fun p => p.2.1)).getD []) = tsf "Cleveland" := by
    simp [AIRPORTS, hfc _ hclev, fcData]
  have hserp : ∀ p ∈ AIRPORTS,
      seriesOf (AIRPORTS.map (fun x => (x.1, fcData (env.forecast x.1)))) p.1 =
        (qs p.1).map JVal.num := by
    intro p hp
    rw [seriesOf_airports (fun x => fcData (env.forecast x.1)) p hp, hfc p hp]
    rfl
  have hwl : weightedList (seriesOf (AIRPORTS.map (fun p => (p.1, fcData (env.forecast p.1)))))
      (List.range DAYS) =
      .ok ((List.range DAYS).map (fun i =>
        round1 ((AIRPORTS.map (fun p => (qs p.1).getD i 0 * p.2.weight)).sum))) := by
    apply weightedList_ok_of
    intro i hi
    rw [sumCities_congr _ (fun c => (qs c).map JVal.num) i AIRPORTS 0 hserp]
    exact sumCities_map_num qs AIRPORTS i
      (fun p hp => by rw [hqs p hp]; exact List.mem_range.mp hi)
  set wsE : List ℚ := (List.range DAYS).map (fun i =>
    round1 ((AIRPORTS.map (fun p => (qs p.1).getD i 0 * p.2.weight)).sum)) with hwsE
  have hwslen : wsE.length = DAYS := by simp [hwsE]
  have hdlen : (tsf "Cleveland").length = DAYS := hts
  have hd0 : pyIndex (((AIRPORTS.map (fun p => (p.1, fcData (env.forecast p.1)))).head?.map
      (fun p => p.2.1)).getD []) 0 = .ok ((tsf "Cleveland").getD 0 "") := by
    rw [hdr]
    exact pyIndex_eq_ok _ 0 "" (by rw [hdlen]; decide)
  have hbr : buildRows
      (((AIRPORTS.map (fun p => (p.1, fcData (env.forecast p.1)))).head?.map
        (fun p => p.2.1)).getD [])
      wsE (dod_change wsE)
      ((((AIRPORTS.map (fun p => (p.1, fcData (env.forecast p.1)))).head?.map
        (fun p => p.2.1)).getD []).map
          (fun d => combineNormals (fun c => fetch_normals_doy_map (env.normals10 c)) (mdOf d)))
      ((((AIRPORTS.map (fun p => (p.1, fcData (env.forecast p.1)))).head?.map
        (fun p => p.2.1)).getD []).map
          (fun d => combineNormals (fun c => fetch_normals_doy_map (env.normals30 c)) (mdOf d)))
      (List.range DAYS) =
      .ok ((List.range DAYS).map (fun i =>
        ⟨(tsf "Cleveland").getD i "", wsE.getD i 0, (dod_change wsE).getD i none,
          ((tsf "Cleveland").map (fun d => combineNormals
            (fun c => fetch_normals_doy_map (env.normals10 c)) (mdOf d))).getD i none,
          ((tsf "Cleveland").map (fun d => combineNormals
            (fun c => fetch_normals_doy_map (env.normals30 c)) (mdOf d))).getD i none⟩)) := by
    rw [hdr]
    apply buildRows_ok_of
    intro i hi
    have hi15 : i < DAYS := List.mem_range.mp hi
    refine ⟨by rw [hdlen]; exact hi15, by rw [hwslen]; exact hi15,
      by rw [dod_change_length]; exact hi15, ?_, ?_⟩ <;>
      (rw [List.length_map, hdlen]; exact hi15)
  obtain ⟨rowsE, hrowsE⟩ : ∃ r : List Row, r = (List.range DAYS).map (fun i =>
      ⟨(tsf "Cleveland").getD i "", wsE.getD i 0, (dod_change wsE).getD i none,
        ((tsf "Cleveland").map (fun d => combineNormals
          (fun c => fetch_normals_doy_map (env.normals10 c)) (mdOf d))).getD i none,
        ((tsf "Cleveland").map (fun d => combineNormals
          (fun c => fetch_normals_doy_map (env.normals30 c)) (mdOf d))).getD i none⟩) :=
    ⟨_, rfl⟩
  rw [← hrowsE] at hbr
  have hmain : main env = .ok
      ⟨"data/weighted_ohio_forecast_" ++ (tsf "Cleveland").getD 0 "" ++ ".csv",
        CSV_HEADER, rowsE, rowsE.map (fun r => rowHighlight r.day_over_day_change_f)⟩ := by
    rw [main, hf]
    simp only [hwl, hd0, hbr]
  refine ⟨_, hmain, ?_, ?_, ?_, ?_, ?_⟩
  · rw [hrowsE]
    simp [DAYS]
  · exact fun r _ => ⟨r.weighted_avg_f, rfl⟩
  · intro r hr
    rw [hrowsE] at hr
    simp only [List.mem_map] at hr
    obtain ⟨i, hi, rfl⟩ := hr
    dsimp only
    have hi15 : i < DAYS := List.mem_range.mp hi
    have hilen : i < (tsf "Cleveland").length := by rw [hdlen]; exact hi15
    have hdmem : (tsf "Cleveland").getD i "" ∈ tsf "Cleveland" :=
      getD_mem_of_lt _ i hilen ""
    constructor
    · rw [getD_map_lt _ _ i hilen none ""]
      apply combineNormals_some_of_all
      intro p hp
      exact Option.isSome_iff_exists.mp (hn10 p hp _ hdmem)
    · rw [getD_map_lt _ _ i hilen none ""]
      apply combineNormals_some_of_all
      intro p hp
      exact Option.isSome_iff_exists.mp (hn30 p hp _ hdmem)
  · rw [hrowsE]
    have hr15 : List.range DAYS = 0 :: List.range' 1 14 := by decide
    have hd0z : (dod_change wsE)[0]?.getD none = none := by
      rw [← List.getD_eq_getElem?_getD]
      exact dod_change_getD_zero wsE
    rw [hr15]
    simp [hd0z]
  · rw [hrowsE]
    have hr15 : List.range DAYS = 0 :: List.range' 1 14 := by decide
    have hd0z : (dod_change wsE)[0]?.getD none = none := by
      rw [← List.getD_eq_getElem?_getD]
      exact dod_change_getD_zero wsE
    rw [hr15, List.filter_map]
    simp only [List.length_map]
    rw [List.filter_cons_of_pos (by simp [hd0z])]
    rw [List.filter_eq_nil_iff.mpr]
    · rfl
    · intro a ha
      have hmem := List.mem_range'_1.mp ha
      have h1 : 1 ≤ a := hmem.1
      have h2 : a < DAYS := by
        have h3 := hmem.2
        have hD : DAYS = 15 := rfl
        omega
      have hd := dod_change_getD_pos wsE a h1 h2
      rw [List.getD_eq_getElem?_getD] at hd
      simp [Function.comp, hd]


/-- C8 witness: the fully successful world `envFull` (15-day series of
50 °F everywhere, normals of 60 °F covering the single month-day of the
forecast range). -/
theorem C8_full_scenario_witness :
    ∃ out, main envFull = .ok out ∧
      out.rows.length = 15 ∧
      (∀ r ∈ out.rows, ∃ q : ℚ, r.weighted_avg_f = q) ∧
      (∀ r ∈ out.rows, (r.normal_10yr_f).isSome ∧ (r.normal_30yr_f).isSome) ∧
      (out.rows.map (fun r => r.day_over_day_change_f)).head? = some none ∧
      (out.rows.filter (fun r => (r.day_over_day_change_f).isNone)).length = 1 := by
  have hmap : fetch_normals_doy_map (some (["2025-01-01"], [JVal.num 60]))
      = [("01-01", 60)] := by
    norm_num +decide [fetch_normals_doy_map, buildBuckets, addBucket, normalsEntry, mdOf,
      show ("2025-01-01".drop 5) = "01-01" from rfl, List.filterMap_cons,
      round1, roundHalfEven, floorQ]
  have hcov : ∀ p ∈ AIRPORTS, ∀ d ∈ datesRep,
      ((fetch_normals_doy_map (some (["2025-01-01"], [JVal.num 60]))).lookup
        (mdOf d)).isSome := by
    intro p _ d hd
    have hde : d = "2025-01-01" := List.eq_of_mem_replicate hd
    subst hde
    rw [hmap]
    rfl
  exact C8_full_scenario envFull (fun _ => datesRep) (fun _ => qsFifty)
    (fun p _ => rfl) rfl (fun p _ => rfl) hcov hcov

end Ohio
